import Mathlib

/-!
Shallow embedding of `src/dariah_topics/visualization.py` (DARIAH-DE topic
model visualization) and verification of its specification claims.

Python floats are modelled as rationals (the claims only compare, copy and
zero-initialise weights), numpy matrices as lists of rows, pandas DataFrames
as a structure of row labels, column labels and data rows, and raising Python
exceptions as `Except String` or `PyOutcome`.
-/

namespace Topics

/-- A pandas DataFrame as used in visualization.py: string row labels
(the index), string column labels, and rational cell values stored by rows. -/
structure Frame where
  index : List String
  columns : List String
  data : List (List ℚ)
deriving Repr, DecidableEq

/-- Transpose of a matrix with the given column count: row j of the result
collects entry j of every row of the argument (missing entries read as 0,
never hit on rectangular input). -/
def transposeMat (m : List (List ℚ)) (ncols : Nat) : List (List ℚ) :=
  (List.range ncols).map (fun j => m.map (fun row => row.getD j 0))

/-- DataFrame.transpose: swap rows with columns together with their labels. -/
def Frame.transpose (f : Frame) : Frame :=
  { index := f.columns, columns := f.index, data := transposeMat f.data f.columns.length }

/-- A trained LDA model as consumed by visualization.py: the number of topics
(model.num_topics), the per-document topic distribution query
(model.__getitem__, a list of (topic_id, weight) tuples), and the list of the
three top terms of a topic (the first components of model.show_topic(i, topn=3)). -/
structure LdaModel (Doc : Type) where
  num_topics : Nat
  getItem : Doc → List (Nat × ℚ)
  show_topic : Nat → List String

/-- The numpy assignment doc_topic[i][t] = w on one row: in range it replaces
the entry, out of range it raises IndexError. -/
def setEntry (row : List ℚ) (t : Nat) (w : ℚ) : Except String (List ℚ) :=
  if t < row.length then .ok (row.set t w) else .error "IndexError: index out of bounds"

/-- Inner loop of create_doc_topic: write every (topic_id, weight) pair of one
document topic distribution into that document row, left to right. -/
def fillDoc (row : List ℚ) (dist : List (Nat × ℚ)) : Except String (List ℚ) :=
  dist.foldlM (fun r tw => setEntry r tw.1 tw.2) row

/-- Pure counterpart of `fillDoc` (out-of-range writes dropped), used to state
what a successful fill computes. -/
def fillDocPure (row : List ℚ) (dist : List (Nat × ℚ)) : List ℚ :=
  dist.foldl (fun r tw => r.set tw.1 tw.2) row

/-- Outer loop of create_doc_topic, `for doc, i in zip(corpus, range(no_of_docs))`:
write the topic distribution of each listed document into the row at its paired
position. -/
def fillCorpus {Doc : Type} (model : LdaModel Doc) (mat : List (List ℚ))
    (pairs : List (Doc × Nat)) : Except String (List (List ℚ)) :=
  pairs.foldlM (fun m p => do
    let row ← fillDoc (m.getD p.2 []) (model.getItem p.1)
    pure (m.set p.2 row)) mat

/-- The matrix built by create_doc_topic before the final transpose: a zero
matrix of shape (len(doc_labels), model.num_topics) filled from the sparse
per-document distributions; zip truncates to the shorter of corpus and
doc_labels. -/
def doc_topic_matrix {Doc : Type} (corpus : List Doc) (model : LdaModel Doc)
    (doc_labels : List String) : Except String (List (List ℚ)) :=
  let no_of_docs := doc_labels.length
  fillCorpus model
    (List.replicate no_of_docs (List.replicate model.num_topics 0))
    (corpus.zip (List.range no_of_docs))

/-- Topic labels built by create_doc_topic: for each topic index the top-3
terms joined by single spaces. -/
def topicLabels {Doc : Type} (model : LdaModel Doc) : List String :=
  (List.range model.num_topics).map (fun i => " ".intercalate (model.show_topic i))

/-- create_doc_topic: build the document-topic matrix, wrap it in a DataFrame
with the document labels as index and the topic labels as columns, and return
the transpose of that frame. -/
def create_doc_topic {Doc : Type} (corpus : List Doc) (model : LdaModel Doc)
    (doc_labels : List String) : Except String Frame := do
  let m ← doc_topic_matrix corpus model doc_labels
  pure (Frame.transpose { index := doc_labels, columns := topicLabels model, data := m })

/-- One row of a Mallet word-weights table: column 0 is the topic id, column 1
the word, column 2 the weight. -/
abbrev MalletRow := Nat × String × ℚ

/-- Sort key of read_mallet_word_weights
(`sort(columns=[0,2], ascending=[True, False])`): primary ascending on the
topic id, secondary descending on the weight. -/
def malletLE (a b : MalletRow) : Prop :=
  a.1 < b.1 ∨ (a.1 = b.1 ∧ b.2.2 ≤ a.2.2)

instance decMalletLE : DecidableRel malletLE := fun a b =>
  inferInstanceAs (Decidable (a.1 < b.1 ∨ (a.1 = b.1 ∧ b.2.2 ≤ a.2.2)))

/-- read_mallet_word_weights: sort the table rows primary ascending by topic
id, secondary descending by weight; the groupby(0) result is modelled as the
sorted table itself, group lookup happening in `get_group`. -/
def read_mallet_word_weights (rows : List MalletRow) : List MalletRow :=
  List.insertionSort malletLE rows

/-- DataFrameGroupBy.get_group on a table grouped by column 0: the rows whose
topic id equals the key, in table order; a key with no rows raises KeyError. -/
def get_group (key : Nat) (table : List MalletRow) : Except String (List MalletRow) :=
  if (table.filter (fun r => decide (r.1 = key))).isEmpty then
    .error "KeyError: group key not found"
  else
    .ok (table.filter (fun r => decide (r.1 = key)))

/-- The word list of get_wordlewords: the first number_of_top_words rows of the
group of topic_nr (`iloc[0:number_of_top_words]`), column 1 of each row. -/
def wordleWordList (table : List MalletRow) (number_of_top_words : Nat)
    (topic_nr : Nat) : Except String (List String) := do
  let topic_word_scores ← get_group topic_nr table
  let top_topic_word_scores := topic_word_scores.take number_of_top_words
  pure (top_topic_word_scores.map (fun r => r.2.1))

/-- get_wordlewords: the top words of the requested topic concatenated into one
string, each word followed by a single space. -/
def get_wordlewords (table : List MalletRow) (number_of_top_words : Nat)
    (topic_nr : Nat) : Except String String := do
  let topic_words ← wordleWordList table number_of_top_words topic_nr
  pure (topic_words.foldl (fun wordlewords word => wordlewords ++ word ++ " ") "")

/-- Column selection doc_topic[label] on a DataFrame: the values of the column
at the first position carrying the label, paired with the row labels. -/
def columnByLabel (f : Frame) (label : String) : List (String × ℚ) :=
  f.index.zip (f.data.map (fun row => row.getD (f.columns.indexOf label) 0))

/-- Ascending-by-value order of Series.sort_values on (label, value) pairs. -/
def valueLE (a b : String × ℚ) : Prop := a.2 ≤ b.2

instance decValueLE : DecidableRel valueLE := fun a b =>
  inferInstanceAs (Decidable (a.2 ≤ b.2))

/-- plot_doc_topics: select the column of the document at document_index
(by its label), drop the entries equal to 0, and sort ascending by value; the
bar chart is drawn from the resulting (label, value) pairs. -/
def plot_doc_topics (doc_topic : Frame) (document_index : Nat) : List (String × ℚ) :=
  List.insertionSort valueLE
    ((columnByLabel doc_topic (doc_topic.columns.getD document_index "")).filter
      (fun p => decide (p.2 ≠ 0)))

/-- Effects of a heatmap build step: the size passed to plt.figure (none for
the matplotlib default), whether pcolor was called to draw the cells, and
whether the heatmap_vis attribute was assigned on the object. -/
structure MakeHeatmapResult where
  figsize : Option (Nat × Nat)
  drawn : Bool
  heatmap_vis : Bool
deriving Repr, DecidableEq

/-- Visualization.make_heatmap: with more than 20 documents or more than 20
topics only an enlarged empty figure is created; otherwise a default figure is
created, pcolor draws the matrix and heatmap_vis is assigned (in the source
every drawing statement sits inside the else branch). -/
def make_heatmap (no_of_docs no_of_topics : Nat) : MakeHeatmapResult :=
  if 20 < no_of_docs ∨ 20 < no_of_topics then
    { figsize := some (20, 20), drawn := false, heatmap_vis := false }
  else
    { figsize := none, drawn := true, heatmap_vis := true }

/-- Effects of the module-level heatmap function: figure size requested and
whether pcolor was called. -/
structure RenderResult where
  figsize : Option (Nat × Nat)
  drawn : Bool
deriving Repr, DecidableEq

/-- doc_topic_heatmap: the argument frame is transposed back (sorting its rows
by label, which changes no count), an enlarged figure is requested exactly when
there are more than 20 documents or more than 20 topics, and pcolor is called
unconditionally. -/
def doc_topic_heatmap (data_frame : Frame) : RenderResult :=
  let doc_labels := data_frame.transpose.index
  let topic_labels := data_frame.transpose.columns
  { figsize :=
      if 20 < doc_labels.length ∨ 20 < topic_labels.length then some (20, 20) else none,
    drawn := true }

/-- Outcome of a Python call: a returned value, or an exception raised to the
caller with its message. -/
inductive PyOutcome (α : Type) where
  | ret : α → PyOutcome α
  | raised : String → PyOutcome α
deriving Repr, DecidableEq

/-- Visualization.save_heatmap: a missing heatmap_vis attribute raises
AttributeError which is logged and re-raised; a FileNotFoundError while saving
is swallowed by the bare pass, the call returning normally with nothing
written. The boolean payload records whether the figure file was written. -/
def save_heatmap (has_heatmap_vis : Bool) (file_not_found : Bool) : PyOutcome Bool :=
  if !has_heatmap_vis then
    .raised "AttributeError: run make_heatmap() before save_heatmap()"
  else if file_not_found then
    .ret false
  else
    .ret true

/-- Visualization.save_interactive: same structure as save_heatmap, keyed on
the interactive_vis attribute set by make_interactive. -/
def save_interactive (has_interactive_vis : Bool) (file_not_found : Bool) : PyOutcome Bool :=
  if !has_interactive_vis then
    .raised "AttributeError: run make_interactive() before save_interactive()"
  else if file_not_found then
    .ret false
  else
    .ret true

/-! Lemmas about the matrix fill of create_doc_topic. -/

theorem fillDoc_nil (row : List ℚ) : fillDoc row [] = .ok row := rfl

theorem fillDoc_cons (row : List ℚ) (tw : Nat × ℚ) (rest : List (Nat × ℚ)) :
    fillDoc row (tw :: rest) =
      (setEntry row tw.1 tw.2).bind (fun r => fillDoc r rest) := by
  cases h : setEntry row tw.1 tw.2 <;>
    simp only [fillDoc, List.foldlM_cons, h] <;> rfl

theorem fillDocPure_cons (row : List ℚ) (tw : Nat × ℚ) (rest : List (Nat × ℚ)) :
    fillDocPure row (tw :: rest) = fillDocPure (row.set tw.1 tw.2) rest := rfl

theorem fillDocPure_length (dist : List (Nat × ℚ)) : ∀ row : List ℚ,
    (fillDocPure row dist).length = row.length := by
  induction dist with
  | nil => intro row; rfl
  | cons tw rest ih =>
    intro row
    rw [fillDocPure_cons, ih (row.set tw.1 tw.2), List.length_set]

theorem fillDoc_eq_ok (dist : List (Nat × ℚ)) : ∀ row : List ℚ,
    (∀ tw ∈ dist, tw.1 < row.length) →
    fillDoc row dist = .ok (fillDocPure row dist) := by
  induction dist with
  | nil => intro row _; rfl
  | cons tw rest ih =>
    intro row h
    have h1 : tw.1 < row.length := h tw (List.mem_cons_self tw rest)
    rw [fillDoc_cons, fillDocPure_cons, setEntry, if_pos h1]
    show fillDoc (row.set tw.1 tw.2) rest = _
    exact ih (row.set tw.1 tw.2)
      (fun p hp => by rw [List.length_set]; exact h p (List.mem_cons_of_mem tw hp))

theorem fillDoc_ok_length (dist : List (Nat × ℚ)) : ∀ (row r : List ℚ),
    fillDoc row dist = .ok r → r.length = row.length := by
  induction dist with
  | nil => intro row r h; cases h; rfl
  | cons tw rest ih =>
    intro row r h
    rw [fillDoc_cons, setEntry] at h
    by_cases h1 : tw.1 < row.length
    · rw [if_pos h1] at h
      have := ih (row.set tw.1 tw.2) r h
      rwa [List.length_set] at this
    · rw [if_neg h1] at h
      cases h

theorem fillDoc_eq_error (dist : List (Nat × ℚ)) : ∀ row : List ℚ,
    (∃ tw ∈ dist, row.length ≤ tw.1) →
    ∃ e, fillDoc row dist = .error e := by
  induction dist with
  | nil => intro row h; obtain ⟨tw, htw, _⟩ := h; cases htw
  | cons tw rest ih =>
    intro row h
    rw [fillDoc_cons]
    by_cases h1 : tw.1 < row.length
    · rw [setEntry, if_pos h1]
      obtain ⟨p, hp, hple⟩ := h
      rcases List.mem_cons.mp hp with rfl | hp
      · omega
      · obtain ⟨e, he⟩ := ih (row.set tw.1 tw.2)
          ⟨p, hp, by rw [List.length_set]; exact hple⟩
        exact ⟨e, by simp [Except.bind, he]⟩
    · exact ⟨"IndexError: index out of bounds", by rw [setEntry, if_neg h1]; rfl⟩

theorem fillDocPure_getElem?_not_mem (dist : List (Nat × ℚ)) : ∀ (row : List ℚ) (t : Nat),
    t ∉ dist.map Prod.fst → (fillDocPure row dist)[t]? = row[t]? := by
  induction dist with
  | nil => intro row t _; rfl
  | cons tw rest ih =>
    intro row t ht
    rw [List.map_cons, List.mem_cons] at ht
    push_neg at ht
    rw [fillDocPure_cons, ih (row.set tw.1 tw.2) t ht.2,
      List.getElem?_set_ne (fun h => ht.1 h.symm)]

theorem fillDocPure_getElem?_mem (dist : List (Nat × ℚ)) : ∀ (row : List ℚ) (t : Nat) (w : ℚ),
    (dist.map Prod.fst).Nodup → (t, w) ∈ dist → t < row.length →
    (fillDocPure row dist)[t]? = some w := by
  induction dist with
  | nil => intro row t w _ hmem _; cases hmem
  | cons tw rest ih =>
    obtain ⟨t1, w1⟩ := tw
    intro row t w hnd hmem ht
    rw [List.map_cons, List.nodup_cons] at hnd
    rcases List.mem_cons.mp hmem with heq | hmem
    · injection heq with h1 h2
      subst h1
      subst h2
      calc (fillDocPure row ((t, w) :: rest))[t]?
          = (fillDocPure (row.set t w) rest)[t]? := rfl
        _ = (row.set t w)[t]? :=
            fillDocPure_getElem?_not_mem rest (row.set t w) t hnd.1
        _ = some w := List.getElem?_set_self (by simpa using ht)
    · calc (fillDocPure row ((t1, w1) :: rest))[t]?
          = (fillDocPure (row.set t1 w1) rest)[t]? := rfl
        _ = some w := ih (row.set t1 w1) t w hnd.2 hmem (by simpa using ht)

theorem getD_set_ne (mat : List (List ℚ)) (i j : Nat) (x : List ℚ) (h : i ≠ j) :
    (mat.set i x).getD j [] = mat.getD j [] := by
  rw [List.getD_eq_getElem?_getD, List.getD_eq_getElem?_getD, List.getElem?_set_ne h]

theorem fillCorpus_nil {Doc : Type} (model : LdaModel Doc) (mat : List (List ℚ)) :
    fillCorpus model mat [] = .ok mat := rfl

theorem fillCorpus_cons {Doc : Type} (model : LdaModel Doc) (mat : List (List ℚ))
    (p : Doc × Nat) (rest : List (Doc × Nat)) :
    fillCorpus model mat (p :: rest) =
      (fillDoc (mat.getD p.2 []) (model.getItem p.1)).bind
        (fun row => fillCorpus model (mat.set p.2 row) rest) := by
  cases h : fillDoc (mat.getD p.2 []) (model.getItem p.1) <;>
    simp only [fillCorpus, List.foldlM_cons, h] <;> rfl

/-- Main characterization of the fill loop: with row indices all in range and
pairwise distinct, and all topic ids in range of their row, the loop succeeds,
every touched row is the pure fill of the corresponding start row, and every
other row is untouched. -/
theorem fillCorpus_ok {Doc : Type} (model : LdaModel Doc) :
    ∀ (pairs : List (Doc × Nat)) (mat : List (List ℚ)),
    (∀ p ∈ pairs, p.2 < mat.length) →
    (pairs.map Prod.snd).Nodup →
    (∀ p ∈ pairs, ∀ tw ∈ model.getItem p.1, tw.1 < (mat.getD p.2 []).length) →
    ∃ m, fillCorpus model mat pairs = .ok m ∧
      m.length = mat.length ∧
      (∀ p ∈ pairs,
        m[p.2]? = some (fillDocPure (mat.getD p.2 []) (model.getItem p.1))) ∧
      (∀ j : Nat, j ∉ pairs.map Prod.snd → m[j]? = mat[j]?) := by
  intro pairs
  induction pairs with
  | nil =>
    intro mat _ _ _
    exact ⟨mat, rfl, rfl, by simp, fun j _ => rfl⟩
  | cons p rest ih =>
    intro mat hidx hnd hrange
    rw [List.map_cons, List.nodup_cons] at hnd
    have hp2 : p.2 < mat.length := hidx p (List.mem_cons_self p rest)
    have hok : fillDoc (mat.getD p.2 []) (model.getItem p.1) =
        .ok (fillDocPure (mat.getD p.2 []) (model.getItem p.1)) :=
      fillDoc_eq_ok _ _ (hrange p (List.mem_cons_self p rest))
    set row1 := fillDocPure (mat.getD p.2 []) (model.getItem p.1) with hrow1
    obtain ⟨m, hm, hmlen, htouched, huntouched⟩ := ih (mat.set p.2 row1)
      (fun q hq => by
        rw [List.length_set]; exact hidx q (List.mem_cons_of_mem p hq))
      hnd.2
      (fun q hq tw htw => by
        have hne : p.2 ≠ q.2 := fun h =>
          hnd.1 (h ▸ List.mem_map_of_mem Prod.snd hq)
        rw [getD_set_ne mat p.2 q.2 row1 hne]
        exact hrange q (List.mem_cons_of_mem p hq) tw htw)
    refine ⟨m, ?_, ?_, ?_, ?_⟩
    · rw [fillCorpus_cons, hok]; exact hm
    · rw [hmlen, List.length_set]
    · intro q hq
      rcases List.mem_cons.mp hq with rfl | hq
      · rw [huntouched q.2 hnd.1]
        exact List.getElem?_set_self (by simpa using hp2)
      · have hne : p.2 ≠ q.2 := fun h =>
          hnd.1 (h ▸ List.mem_map_of_mem Prod.snd hq)
        rw [htouched q hq, getD_set_ne mat p.2 q.2 row1 hne]
    · intro j hj
      rw [List.map_cons, List.mem_cons] at hj
      push_neg at hj
      rw [huntouched j hj.2, List.getElem?_set_ne (Ne.symm hj.1)]

/-- Error side of the fill loop: when the rows all have length L and some
listed document carries a topic id at least L, the loop raises an IndexError. -/
theorem fillCorpus_error {Doc : Type} (model : LdaModel Doc) :
    ∀ (pairs : List (Doc × Nat)) (mat : List (List ℚ)) (L : Nat),
    (∀ row ∈ mat, row.length = L) →
    (∀ p ∈ pairs, p.2 < mat.length) →
    (∃ p ∈ pairs, ∃ tw ∈ model.getItem p.1, L ≤ tw.1) →
    ∃ e, fillCorpus model mat pairs = .error e := by
  intro pairs
  induction pairs with
  | nil =>
    intro mat L _ _ hex
    obtain ⟨p, hp, _⟩ := hex
    cases hp
  | cons q rest ih =>
    intro mat L hrows hidx hex
    have hq2 : q.2 < mat.length := hidx q (List.mem_cons_self q rest)
    have hqrow : mat.getD q.2 [] ∈ mat := by
      rw [List.getD_eq_getElem?_getD, List.getElem?_eq_getElem hq2]
      exact List.getElem_mem hq2
    have hqlen : (mat.getD q.2 []).length = L := hrows _ hqrow
    obtain ⟨p, hp, tw, htw, hle⟩ := hex
    rcases List.mem_cons.mp hp with rfl | hp
    · obtain ⟨e, he⟩ := fillDoc_eq_error (model.getItem p.1) (mat.getD p.2 [])
        ⟨tw, htw, by rw [hqlen]; exact hle⟩
      exact ⟨e, by rw [fillCorpus_cons, he]; rfl⟩
    · cases hfd : fillDoc (mat.getD q.2 []) (model.getItem q.1) with
      | error e => exact ⟨e, by rw [fillCorpus_cons, hfd]; rfl⟩
      | ok row1 =>
        have hr1 : row1.length = L := by
          rw [fillDoc_ok_length (model.getItem q.1) _ _ hfd, hqlen]
        obtain ⟨e, he⟩ := ih (mat.set q.2 row1) L
          (fun row hrow => by
            rcases List.mem_or_eq_of_mem_set hrow with hrow | rfl
            · exact hrows row hrow
            · exact hr1)
          (fun r hr => by
            rw [List.length_set]; exact hidx r (List.mem_cons_of_mem q hr))
          ⟨p, hp, tw, htw, hle⟩
        exact ⟨e, by rw [fillCorpus_cons, hfd]; exact he⟩

theorem map_snd_zip_eq_take {A B : Type} : ∀ (l1 : List A) (l2 : List B),
    (l1.zip l2).map Prod.snd = l2.take l1.length
  | [], l2 => by simp
  | a :: l1, [] => by simp
  | a :: l1, b :: l2 => by simp [map_snd_zip_eq_take l1 l2]

theorem zip_range_snd_nodup {A : Type} (l : List A) (n : Nat) :
    ((l.zip (List.range n)).map Prod.snd).Nodup := by
  rw [map_snd_zip_eq_take]
  exact (List.nodup_range n).sublist (List.take_sublist _ _)

theorem snd_lt_of_mem_zip_range {A : Type} {l : List A} {n : Nat} {p : A × Nat}
    (hp : p ∈ l.zip (List.range n)) : p.2 < n :=
  List.mem_range.mp (List.of_mem_zip hp).2

theorem getD_replicate_of_lt (n i : Nat) (x : List ℚ) (h : i < n) :
    (List.replicate n x).getD i [] = x := by
  simp [List.getD_eq_getElem?_getD, List.getElem?_replicate, h]

theorem mem_zip_range {Doc : Type} (corpus : List Doc) (n i : Nat)
    (hi : i < corpus.length) (hn : i < n) :
    (corpus[i], i) ∈ corpus.zip (List.range n) := by
  have hlen : i < (corpus.zip (List.range n)).length := by
    rw [List.length_zip corpus (List.range n)]
    simp only [List.length_range]
    omega
  have hmem := List.getElem_mem hlen
  rw [List.getElem_zip, List.getElem_range] at hmem
  exact hmem

/-- The concrete LDA model of the specification scenario: two topics, identity
document query (documents are already sparse distributions), top terms a b c
for topic 0 and d e f for topic 1. -/
def exampleModel : LdaModel (List (Nat × ℚ)) :=
  { num_topics := 2
    getItem := id
    show_topic := fun i => if i = 0 then ["a", "b", "c"] else ["d", "e", "f"] }

/-- The concrete corpus of the specification scenario:
topic_assignments = [[(0, 0.7), (1, 0.3)], [(1, 1.0)]]. -/
def exampleCorpus : List (List (Nat × ℚ)) := [[(0, 0.7), (1, 0.3)], [(1, 1.0)]]

/-- C1: for well-formed input (as many documents as labels, every topic id
below num_topics, no repeated topic id within a document), the matrix built by
create_doc_topic before the final transpose has exactly doc_labels.length rows
and num_topics columns, cell [i][topic_id] holds the weight assigned by
document i, and every cell without an assignment is exactly 0. -/
theorem create_doc_topic_matrix_spec {Doc : Type} (corpus : List Doc)
    (model : LdaModel Doc) (doc_labels : List String)
    (hlen : corpus.length = doc_labels.length)
    (hrange : ∀ doc ∈ corpus, ∀ tw ∈ model.getItem doc, tw.1 < model.num_topics)
    (hnodup : ∀ doc ∈ corpus, ((model.getItem doc).map Prod.fst).Nodup) :
    ∃ m, doc_topic_matrix corpus model doc_labels = Except.ok m ∧
      m.length = doc_labels.length ∧
      (∀ row ∈ m, row.length = model.num_topics) ∧
      (∀ (i : Nat) (hi : i < corpus.length),
        (∀ tw ∈ model.getItem corpus[i], (m.getD i []).getD tw.1 0 = tw.2) ∧
        (∀ t : Nat, t < model.num_topics →
          t ∉ (model.getItem corpus[i]).map Prod.fst →
          (m.getD i []).getD t 0 = 0)) := by
  set n := doc_labels.length with hn
  set T := model.num_topics with hT
  set mat0 := List.replicate n (List.replicate T (0 : ℚ)) with hmat0
  set pairs := corpus.zip (List.range n) with hpairs
  have hpairs_lt : ∀ p ∈ pairs, p.2 < mat0.length := fun p hp => by
    rw [hmat0, List.length_replicate]
    exact snd_lt_of_mem_zip_range hp
  have hpairs_range : ∀ p ∈ pairs, ∀ tw ∈ model.getItem p.1,
      tw.1 < (mat0.getD p.2 []).length := by
    intro p hp tw htw
    rw [hmat0, getD_replicate_of_lt n p.2 _ (snd_lt_of_mem_zip_range hp),
      List.length_replicate]
    exact hrange p.1 (List.of_mem_zip hp).1 tw htw
  obtain ⟨m, hm, hmlen, htouched, huntouched⟩ :=
    fillCorpus_ok model pairs mat0 hpairs_lt (zip_range_snd_nodup corpus n) hpairs_range
  refine ⟨m, hm, ?_, ?_, ?_⟩
  · rw [hmlen, hmat0, List.length_replicate]
  · intro row hrow
    obtain ⟨j, hj⟩ := List.mem_iff_getElem?.mp hrow
    by_cases hjmem : j ∈ pairs.map Prod.snd
    · obtain ⟨p, hp, rfl⟩ := List.mem_map.mp hjmem
      rw [htouched p hp] at hj
      have hrow_eq : row = fillDocPure (mat0.getD p.2 []) (model.getItem p.1) :=
        (Option.some.inj hj).symm
      rw [hrow_eq, fillDocPure_length, hmat0,
        getD_replicate_of_lt n p.2 _ (snd_lt_of_mem_zip_range hp), List.length_replicate]
    · rw [huntouched j hjmem, hmat0, List.getElem?_replicate] at hj
      by_cases hjn : j < n
      · rw [if_pos hjn] at hj
        rw [← Option.some.inj hj, List.length_replicate]
      · rw [if_neg hjn] at hj
        cases hj
  · intro i hi
    have hin : i < n := by omega
    have hpair := mem_zip_range corpus n i hi hin
    have hrow_eq : m.getD i [] =
        fillDocPure (List.replicate T 0) (model.getItem corpus[i]) := by
      have hmi := htouched (corpus[i], i) hpair
      rw [List.getD_eq_getElem?_getD, hmi, hmat0, getD_replicate_of_lt n i _ hin]
      rfl
    constructor
    · intro tw htw
      obtain ⟨t0, w0⟩ := tw
      have ht0 : t0 < T := hrange corpus[i] (List.getElem_mem hi) (t0, w0) htw
      rw [hrow_eq, List.getD_eq_getElem?_getD,
        fillDocPure_getElem?_mem (model.getItem corpus[i]) (List.replicate T 0) t0 w0
          (hnodup corpus[i] (List.getElem_mem hi)) htw
          (by rw [List.length_replicate]; exact ht0)]
      rfl
    · intro t ht htnot
      rw [hrow_eq, List.getD_eq_getElem?_getD,
        fillDocPure_getElem?_not_mem (model.getItem corpus[i]) (List.replicate T 0) t htnot,
        List.getElem?_replicate, if_pos ht]
      rfl

/-- Witness for C1 at the concrete scenario corpus with two documents and two
topics. -/
theorem create_doc_topic_matrix_spec_witness :
    (exampleCorpus.length = (["doc1", "doc2"] : List String).length ∧
      (∀ doc ∈ exampleCorpus, ∀ tw ∈ exampleModel.getItem doc,
        tw.1 < exampleModel.num_topics) ∧
      (∀ doc ∈ exampleCorpus, ((exampleModel.getItem doc).map Prod.fst).Nodup)) ∧
    (∃ m, doc_topic_matrix exampleCorpus exampleModel ["doc1", "doc2"] = Except.ok m ∧
      m.length = (["doc1", "doc2"] : List String).length ∧
      (∀ row ∈ m, row.length = exampleModel.num_topics) ∧
      (∀ (i : Nat) (hi : i < exampleCorpus.length),
        (∀ tw ∈ exampleModel.getItem exampleCorpus[i],
          (m.getD i []).getD tw.1 0 = tw.2) ∧
        (∀ t : Nat, t < exampleModel.num_topics →
          t ∉ (exampleModel.getItem exampleCorpus[i]).map Prod.fst →
          (m.getD i []).getD t 0 = 0))) :=
  ⟨⟨by decide, by decide, by decide⟩,
    create_doc_topic_matrix_spec exampleCorpus exampleModel ["doc1", "doc2"]
      (by decide) (by decide) (by decide)⟩

/-- C2 counterexample: on the scenario input, create_doc_topic does not return
the frame [[0.7, 0.3], [0.0, 1.0]] indexed by document then topic labels,
because the function transposes the frame before returning it. -/
theorem create_doc_topic_example_not_as_claimed :
    ¬ create_doc_topic exampleCorpus exampleModel ["doc1", "doc2"] =
      Except.ok { index := ["doc1", "doc2"], columns := ["a b c", "d e f"],
                  data := [[0.7, 0.3], [0, 1]] } := by
  intro h
  norm_num [create_doc_topic, doc_topic_matrix, fillCorpus, fillDoc, setEntry,
    topicLabels, Frame.transpose, transposeMat, exampleCorpus, exampleModel,
    List.foldlM, List.range, List.range.loop, List.zip, List.zipWith,
    List.replicate, Except.pure, pure, bind, Except.bind, Frame.mk.injEq] at h

/-- C2 amended: on the scenario input, create_doc_topic returns the TRANSPOSED
frame, with the topic labels as index, the document labels as columns and data
[[0.7, 0.0], [0.3, 1.0]]; the matrix before the final transpose is
[[0.7, 0.3], [0.0, 1.0]] in document-major orientation. -/
theorem create_doc_topic_example_value :
    create_doc_topic exampleCorpus exampleModel ["doc1", "doc2"] =
      Except.ok { index := ["a b c", "d e f"], columns := ["doc1", "doc2"],
                  data := [[0.7, 0], [0.3, 1]] } ∧
    doc_topic_matrix exampleCorpus exampleModel ["doc1", "doc2"] =
      Except.ok [[0.7, 0.3], [0, 1]] := by
  constructor
  · norm_num [create_doc_topic, doc_topic_matrix, fillCorpus, fillDoc, setEntry,
      topicLabels, Frame.transpose, transposeMat, exampleCorpus, exampleModel,
      List.foldlM, List.range, List.range.loop, List.zip, List.zipWith,
      List.replicate, Except.pure, pure, bind, Except.bind]
    exact ⟨rfl, rfl⟩
  · norm_num [doc_topic_matrix, fillCorpus, fillDoc, setEntry,
      exampleCorpus, exampleModel, List.foldlM, List.range, List.range.loop,
      List.zip, List.zipWith, List.replicate, Except.pure, pure, bind, Except.bind]

/-- C3 counterexample: with two corpus documents but a single document label,
create_doc_topic raises no error; it silently drops the second document and
returns a one-column frame. -/
theorem create_doc_topic_truncates_on_mismatch :
    exampleCorpus.length ≠ (["doc1"] : List String).length ∧
    create_doc_topic exampleCorpus exampleModel ["doc1"] =
      Except.ok { index := ["a b c", "d e f"], columns := ["doc1"],
                  data := [[0.7], [0.3]] } := by
  constructor
  · decide
  · norm_num [create_doc_topic, doc_topic_matrix, fillCorpus, fillDoc, setEntry,
      topicLabels, Frame.transpose, transposeMat, exampleCorpus, exampleModel,
      List.foldlM, List.range, List.range.loop, List.zip, List.zipWith,
      List.replicate, Except.pure, pure, bind, Except.bind]
    exact ⟨rfl, rfl⟩

/-- C3 amended: a topic id at least num_topics in a processed document makes
create_doc_topic fail with an IndexError; a document-count mismatch is NOT
detected: the call succeeds, extra corpus documents beyond the label count are
silently dropped and extra labels produce untouched zero rows, the matrix
always having doc_labels.length rows. -/
theorem create_doc_topic_error_behavior {Doc : Type} (corpus : List Doc)
    (model : LdaModel Doc) (doc_labels : List String) :
    ((∃ p ∈ corpus.zip (List.range doc_labels.length),
        ∃ tw ∈ model.getItem p.1, model.num_topics ≤ tw.1) →
      ∃ e, create_doc_topic corpus model doc_labels = Except.error e) ∧
    ((∀ doc ∈ corpus, ∀ tw ∈ model.getItem doc, tw.1 < model.num_topics) →
      ∃ m, doc_topic_matrix corpus model doc_labels = Except.ok m ∧
        m.length = doc_labels.length ∧
        (create_doc_topic corpus model doc_labels).isOk = true) := by
  constructor
  · intro hex
    obtain ⟨e, he⟩ := fillCorpus_error model (corpus.zip (List.range doc_labels.length))
      (List.replicate doc_labels.length (List.replicate model.num_topics 0))
      model.num_topics
      (fun row hrow => by rw [List.eq_of_mem_replicate hrow, List.length_replicate])
      (fun p hp => by
        rw [List.length_replicate]
        exact snd_lt_of_mem_zip_range hp)
      hex
    refine ⟨e, ?_⟩
    have hdm : doc_topic_matrix corpus model doc_labels = Except.error e := he
    unfold create_doc_topic
    rw [hdm]
    rfl
  · intro hrange
    obtain ⟨m, hm, hmlen, _, _⟩ :=
      fillCorpus_ok model (corpus.zip (List.range doc_labels.length))
        (List.replicate doc_labels.length (List.replicate model.num_topics 0))
        (fun p hp => by
          rw [List.length_replicate]
          exact snd_lt_of_mem_zip_range hp)
        (zip_range_snd_nodup corpus doc_labels.length)
        (fun p hp tw htw => by
          rw [getD_replicate_of_lt _ _ _ (snd_lt_of_mem_zip_range hp),
            List.length_replicate]
          exact hrange p.1 (List.of_mem_zip hp).1 tw htw)
    have hdm : doc_topic_matrix corpus model doc_labels = Except.ok m := hm
    refine ⟨m, hdm, by rw [hmlen, List.length_replicate], ?_⟩
    unfold create_doc_topic
    rw [hdm]
    rfl

/-- A corpus whose single document refers to topic id 2, out of range for the
two-topic example model. -/
def badCorpus : List (List (Nat × ℚ)) := [[(2, 0.5)]]

/-- Witness for the amended C3: the out-of-range corpus raises an IndexError,
and the mismatched-length call succeeds with a doc_labels-sized matrix. -/
theorem create_doc_topic_error_behavior_witness :
    ((∃ p ∈ badCorpus.zip (List.range (["d1"] : List String).length),
        ∃ tw ∈ exampleModel.getItem p.1, exampleModel.num_topics ≤ tw.1) ∧
      ∃ e, create_doc_topic badCorpus exampleModel ["d1"] = Except.error e) ∧
    ((∀ doc ∈ exampleCorpus, ∀ tw ∈ exampleModel.getItem doc,
        tw.1 < exampleModel.num_topics) ∧
      ∃ m, doc_topic_matrix exampleCorpus exampleModel ["doc1"] = Except.ok m ∧
        m.length = (["doc1"] : List String).length ∧
        (create_doc_topic exampleCorpus exampleModel ["doc1"]).isOk = true) := by
  constructor
  · have hex : ∃ p ∈ badCorpus.zip (List.range (["d1"] : List String).length),
        ∃ tw ∈ exampleModel.getItem p.1, exampleModel.num_topics ≤ tw.1 :=
      ⟨([(2, 0.5)], 0),
        by norm_num [badCorpus, List.range, List.range.loop, List.zip, List.zipWith],
        (2, 0.5), by simp [exampleModel], by decide⟩
    exact ⟨hex, (create_doc_topic_error_behavior badCorpus exampleModel ["d1"]).1 hex⟩
  · have hr : ∀ doc ∈ exampleCorpus, ∀ tw ∈ exampleModel.getItem doc,
        tw.1 < exampleModel.num_topics := by decide
    exact ⟨hr, (create_doc_topic_error_behavior exampleCorpus exampleModel ["doc1"]).2 hr⟩

/-! Lemmas about the Mallet word-weights adapter. -/

instance : IsTotal MalletRow malletLE :=
  ⟨fun a b => by
    unfold malletLE
    rcases Nat.lt_trichotomy a.1 b.1 with h | h | h
    · exact Or.inl (Or.inl h)
    · rcases le_total a.2.2 b.2.2 with hw | hw
      · exact Or.inr (Or.inr ⟨h.symm, hw⟩)
      · exact Or.inl (Or.inr ⟨h, hw⟩)
    · exact Or.inr (Or.inl h)⟩

instance : IsTrans MalletRow malletLE :=
  ⟨fun a b c hab hbc => by
    unfold malletLE at *
    rcases hab with h1 | ⟨e1, w1⟩ <;> rcases hbc with h2 | ⟨e2, w2⟩
    · exact Or.inl (h1.trans h2)
    · exact Or.inl (by omega)
    · exact Or.inl (by omega)
    · exact Or.inr ⟨e1.trans e2, w2.trans w1⟩⟩

/-- The group of one topic in the sorted Mallet table: all of its rows, in
sorted order; this is the list a successful get_group returns. -/
def malletGroup (rows : List MalletRow) (t : Nat) : List MalletRow :=
  (read_mallet_word_weights rows).filter (fun r => decide (r.1 = t))

/-- C4: read_mallet_word_weights sorts the table primary ascending by topic id
and secondary descending by weight (a permutation of the input rows), and for
every topic present in the file and every K the slice used by get_wordlewords
holds exactly min K (group size) words, the rows of the group all carrying the
requested topic id in descending-weight order. -/
theorem mallet_sort_and_top_words (rows : List MalletRow) :
    List.Sorted malletLE (read_mallet_word_weights rows) ∧
    List.Perm (read_mallet_word_weights rows) rows ∧
    ∀ t K : Nat, (∃ r ∈ rows, r.1 = t) →
      get_group t (read_mallet_word_weights rows) = .ok (malletGroup rows t) ∧
      (∀ r ∈ malletGroup rows t, r.1 = t) ∧
      (malletGroup rows t).Pairwise (fun a b => b.2.2 ≤ a.2.2) ∧
      wordleWordList (read_mallet_word_weights rows) K t =
        .ok (((malletGroup rows t).take K).map (fun r => r.2.1)) ∧
      get_wordlewords (read_mallet_word_weights rows) K t =
        .ok ((((malletGroup rows t).take K).map (fun r => r.2.1)).foldl
          (fun acc w => acc ++ w ++ " ") "") ∧
      (((malletGroup rows t).take K).map (fun r => r.2.1)).length =
        min K (malletGroup rows t).length := by
  have hsorted := List.sorted_insertionSort malletLE rows
  have hperm := List.perm_insertionSort malletLE rows
  refine ⟨hsorted, hperm, ?_⟩
  intro t K hex
  obtain ⟨r, hr, hrt⟩ := hex
  have hrs : r ∈ read_mallet_word_weights rows := hperm.mem_iff.mpr hr
  have hrg : r ∈ malletGroup rows t :=
    List.mem_filter.mpr ⟨hrs, by simpa using hrt⟩
  have hne : malletGroup rows t ≠ [] := List.ne_nil_of_mem hrg
  have hgg : get_group t (read_mallet_word_weights rows) = .ok (malletGroup rows t) := by
    unfold get_group
    rw [if_neg (fun hemp => hne (by rwa [List.isEmpty_iff] at hemp))]
    rfl
  have hall : ∀ x ∈ malletGroup rows t, x.1 = t := fun x hx =>
    of_decide_eq_true (List.mem_filter.mp hx).2
  have hpw : (malletGroup rows t).Pairwise (fun a b : MalletRow => b.2.2 ≤ a.2.2) := by
    have h1 : (malletGroup rows t).Pairwise malletLE :=
      List.Pairwise.filter _ hsorted
    refine h1.imp_of_mem ?_
    intro a b ha hb hab
    rcases hab with h | ⟨_, h⟩
    · exact absurd h (by rw [hall a ha, hall b hb]; omega)
    · exact h
  have hwl : wordleWordList (read_mallet_word_weights rows) K t =
      .ok (((malletGroup rows t).take K).map (fun r => r.2.1)) := by
    unfold wordleWordList
    rw [hgg]
    rfl
  have hww : get_wordlewords (read_mallet_word_weights rows) K t =
      .ok ((((malletGroup rows t).take K).map (fun r => r.2.1)).foldl
        (fun acc w => acc ++ w ++ " ") "") := by
    unfold get_wordlewords
    rw [hwl]
    rfl
  exact ⟨hgg, hall, hpw, hwl, hww, by rw [List.length_map, List.length_take]⟩

/-- The concrete Mallet table of the specification scenario. -/
def exampleRows : List MalletRow := [(0, "cat", 0.9), (0, "dog", 0.4), (1, "fish", 0.2)]

/-- Witness for C4 at the scenario table with topic 0 and one top word. -/
theorem mallet_sort_and_top_words_witness :
    (∃ r ∈ exampleRows, r.1 = 0) ∧
    (get_group 0 (read_mallet_word_weights exampleRows) =
        .ok (malletGroup exampleRows 0) ∧
      (∀ r ∈ malletGroup exampleRows 0, r.1 = 0) ∧
      (malletGroup exampleRows 0).Pairwise (fun a b => b.2.2 ≤ a.2.2) ∧
      wordleWordList (read_mallet_word_weights exampleRows) 1 0 =
        .ok (((malletGroup exampleRows 0).take 1).map (fun r => r.2.1)) ∧
      get_wordlewords (read_mallet_word_weights exampleRows) 1 0 =
        .ok ((((malletGroup exampleRows 0).take 1).map (fun r => r.2.1)).foldl
          (fun acc w => acc ++ w ++ " ") "") ∧
      (((malletGroup exampleRows 0).take 1).map (fun r => r.2.1)).length =
        min 1 (malletGroup exampleRows 0).length) :=
  have hex : ∃ r ∈ exampleRows, r.1 = 0 :=
    ⟨(0, "cat", 0.9), by simp [exampleRows], rfl⟩
  ⟨hex, (mallet_sort_and_top_words exampleRows).2.2 0 1 hex⟩

/-- C5: on the scenario table, get_wordlewords with one top word and topic 0
returns exactly the string "cat " (the word followed by a single space). -/
theorem get_wordlewords_example :
    get_wordlewords (read_mallet_word_weights exampleRows) 1 0 = .ok "cat " := by
  norm_num [get_wordlewords, wordleWordList, get_group, read_mallet_word_weights,
    exampleRows, List.insertionSort, List.orderedInsert, malletLE, Except.bind,
    pure, bind, Except.pure]
  rfl

/-- C6: requesting a topic id that appears in no row of the table makes
get_wordlewords fail with the KeyError of the groupby key lookup rather than
silently returning an empty result. -/
theorem get_wordlewords_missing_topic (rows : List MalletRow) (K t : Nat)
    (h : ∀ r ∈ rows, r.1 ≠ t) :
    get_wordlewords (read_mallet_word_weights rows) K t =
      .error "KeyError: group key not found" ∧
    wordleWordList (read_mallet_word_weights rows) K t =
      .error "KeyError: group key not found" := by
  have hperm := List.perm_insertionSort malletLE rows
  have hfil : (read_mallet_word_weights rows).filter (fun r => decide (r.1 = t)) = [] := by
    rw [List.filter_eq_nil_iff]
    intro a ha
    simpa using h a (hperm.mem_iff.mp ha)
  have hgg : get_group t (read_mallet_word_weights rows) =
      .error "KeyError: group key not found" := by
    unfold get_group
    rw [hfil]
    rfl
  have hwl : wordleWordList (read_mallet_word_weights rows) K t =
      .error "KeyError: group key not found" := by
    unfold wordleWordList
    rw [hgg]
    rfl
  exact ⟨by unfold get_wordlewords; rw [hwl]; rfl, hwl⟩

/-- Witness for C6: topic id 7 occurs nowhere in the scenario table. -/
theorem get_wordlewords_missing_topic_witness :
    (∀ r ∈ exampleRows, r.1 ≠ 7) ∧
    (get_wordlewords (read_mallet_word_weights exampleRows) 1 7 =
        .error "KeyError: group key not found" ∧
      wordleWordList (read_mallet_word_weights exampleRows) 1 7 =
        .error "KeyError: group key not found") :=
  ⟨by decide, get_wordlewords_missing_topic exampleRows 1 7 (by decide)⟩

/-! Lemmas about the per-document bar chart. -/

instance : IsTotal (String × ℚ) valueLE :=
  ⟨fun a b => le_total a.2 b.2⟩

instance : IsTrans (String × ℚ) valueLE :=
  ⟨fun _ _ _ hab hbc => le_trans hab hbc⟩

/-- C7: for a frame with pairwise distinct column labels and a valid document
index, the bar-chart data of plot_doc_topics is sorted ascending by value,
contains no zero entry, and is a permutation of the nonzero entries of that
document column paired with their row labels. -/
theorem plot_doc_topics_spec (f : Frame) (i : Nat)
    (hnd : f.columns.Nodup) (hi : i < f.columns.length) :
    List.Sorted valueLE (plot_doc_topics f i) ∧
    (∀ p ∈ plot_doc_topics f i, p.2 ≠ 0) ∧
    List.Perm (plot_doc_topics f i)
      ((f.index.zip (f.data.map (fun row => row.getD i 0))).filter
        (fun p => decide (p.2 ≠ 0))) := by
  have hlabel : f.columns.getD i "" = f.columns[i] := by
    rw [List.getD_eq_getElem?_getD, List.getElem?_eq_getElem hi]
    rfl
  have hidx : f.columns.indexOf (f.columns.getD i "") = i := by
    rw [hlabel]
    exact List.indexOf_getElem hnd i hi
  have hcol : columnByLabel f (f.columns.getD i "") =
      f.index.zip (f.data.map (fun row => row.getD i 0)) := by
    unfold columnByLabel
    rw [hidx]
  have hrw : plot_doc_topics f i = List.insertionSort valueLE
      ((f.index.zip (f.data.map (fun row => row.getD i 0))).filter
        (fun p => decide (p.2 ≠ 0))) := by
    unfold plot_doc_topics
    rw [hcol]
  refine ⟨?_, ?_, ?_⟩
  · rw [hrw]
    exact List.sorted_insertionSort valueLE _
  · intro p hp
    rw [hrw] at hp
    have hmem := (List.perm_insertionSort valueLE _).mem_iff.mp hp
    exact of_decide_eq_true (List.mem_filter.mp hmem).2
  · rw [hrw]
    exact List.perm_insertionSort valueLE _

/-- The transposed frame returned by create_doc_topic on the scenario input,
with a third all-zero topic row added. -/
def exampleFrame : Frame :=
  { index := ["t1", "t2", "t3"]
    columns := ["doc1", "doc2"]
    data := [[0.7, 0], [0.3, 1], [0, 0]] }

/-- Witness for C7 at the concrete three-topic frame and document 0. -/
theorem plot_doc_topics_spec_witness :
    (exampleFrame.columns.Nodup ∧ 0 < exampleFrame.columns.length) ∧
    (List.Sorted valueLE (plot_doc_topics exampleFrame 0) ∧
      (∀ p ∈ plot_doc_topics exampleFrame 0, p.2 ≠ 0) ∧
      List.Perm (plot_doc_topics exampleFrame 0)
        ((exampleFrame.index.zip (exampleFrame.data.map (fun row => row.getD 0 0))).filter
          (fun p => decide (p.2 ≠ 0)))) :=
  ⟨⟨by decide, by decide⟩, plot_doc_topics_spec exampleFrame 0 (by decide) (by decide)⟩

/-! Theorems about the heatmap figure policy and the save error policy. -/

/-- C8 counterexample: with 21 documents the make_heatmap method creates only
the enlarged figure and never draws the heatmap cells, so it is not true that
a heatmap figure is produced in both branches of the size policy. -/
theorem make_heatmap_large_not_drawn : ¬ (make_heatmap 21 5).drawn = true := by
  decide

/-- C8 amended: the module-level doc_topic_heatmap always calls pcolor, with
figure size (20, 20) exactly when there are more than 20 documents or more
than 20 topics and the default size otherwise; the Visualization.make_heatmap
method instead draws the heatmap and assigns heatmap_vis only when both counts
are at most 20, creating just an enlarged empty figure otherwise. -/
theorem heatmap_figsize_policy (f : Frame) (d t : Nat) :
    (doc_topic_heatmap f).drawn = true ∧
    (doc_topic_heatmap f).figsize =
      (if 20 < f.columns.length ∨ 20 < f.index.length then some (20, 20) else none) ∧
    make_heatmap d t =
      (if 20 < d ∨ 20 < t then
        { figsize := some (20, 20), drawn := false, heatmap_vis := false }
      else
        { figsize := none, drawn := true, heatmap_vis := true }) :=
  ⟨rfl, rfl, rfl⟩

/-- C9: calling a save step before its build step has populated the required
attribute raises the AttributeError to the caller, for both save_heatmap and
save_interactive; a FileNotFoundError during the save is swallowed, the call
returning normally with nothing written, and an undisturbed save writes the
file. -/
theorem save_error_policy (fnf : Bool) :
    save_heatmap false fnf =
      .raised "AttributeError: run make_heatmap() before save_heatmap()" ∧
    save_interactive false fnf =
      .raised "AttributeError: run make_interactive() before save_interactive()" ∧
    save_heatmap true true = .ret false ∧
    save_interactive true true = .ret false ∧
    save_heatmap true false = .ret true ∧
    save_interactive true false = .ret true :=
  ⟨rfl, rfl, rfl, rfl, rfl, rfl⟩

/-- C10: with more than 20 documents or more than 20 topics, make_heatmap
creates the enlarged (20, 20) figure but never draws and never assigns
heatmap_vis, so a subsequent save_heatmap raises the missing-prerequisite
AttributeError even though make_heatmap ran first. -/
theorem make_heatmap_large_breaks_save (d t : Nat) (fnf : Bool)
    (h : 20 < d ∨ 20 < t) :
    make_heatmap d t =
      { figsize := some (20, 20), drawn := false, heatmap_vis := false } ∧
    save_heatmap (make_heatmap d t).heatmap_vis fnf =
      .raised "AttributeError: run make_heatmap() before save_heatmap()" := by
  have hmk : make_heatmap d t =
      { figsize := some (20, 20), drawn := false, heatmap_vis := false } := by
    unfold make_heatmap
    rw [if_pos h]
  exact ⟨hmk, by rw [hmk]; rfl⟩

/-- Witness for C10 at 21 documents and 5 topics. -/
theorem make_heatmap_large_breaks_save_witness :
    (20 < 21 ∨ 20 < 5) ∧
    (make_heatmap 21 5 =
        { figsize := some (20, 20), drawn := false, heatmap_vis := false } ∧
      save_heatmap (make_heatmap 21 5).heatmap_vis false =
        .raised "AttributeError: run make_heatmap() before save_heatmap()") :=
  ⟨by decide, make_heatmap_large_breaks_save 21 5 false (by decide)⟩

end Topics
